import Mathlib

/-!
Shallow embedding of the Tool Acquisition & Caching Engine of the
digicert/code-signing-software-trust-action repository, and proofs about it.

The embedding follows the TypeScript sources:
* `src/utils.ts` — retry executor (`retryWithBackoff`, `RetryConfig`);
* `tool_setup.ts` (src/unnamed/part_007) — orchestrator (`cachedSetup`,
  `setupTool`, `writePKCS11ConfigFile`, version resolution, cache keys);
* `zip_setup.ts`, `file_noop_setup.ts`, `macos_dmg_setup.ts`,
  `windows_msi_setup.ts` (src/unnamed/part_005) — the archive dispatchers.

Async operations that can reject are modelled as `Except Thrown`-valued
oracles; an operation that the environment may answer differently on
successive attempts is modelled as a function from the (1-based) attempt
number to its outcome.  JavaScript `number` delays are modelled as `ℚ`.
-/

namespace SWTrust

/-- A JavaScript `Error` value, reduced to the only field the engine reads:
its `message`. -/
structure JsError where
  message : String
deriving DecidableEq

/-- A value thrown by an async operation: either a proper `Error`, or a
non-`Error` value represented by its JS stringification `String(value)`. -/
inductive Thrown where
  | err (e : JsError)
  | nonError (s : String)
deriving DecidableEq

/-- `error instanceof Error ? error : new Error(String(error))`
(utils.ts line 130). -/
def normalizeThrown : Thrown → JsError
  | .err e => e
  | .nonError s => ⟨s⟩

/-- JS string conversion of a thrown value, as used in template literals:
`String(e)` on an `Error` yields `"Error: " ++ message`; a non-`Error`
value is already carried as its stringification. -/
def stringOfThrown : Thrown → String
  | .err e => "Error: " ++ e.message
  | .nonError s => s

/-- `RetryConfig` from utils.ts lines 76-85, with the defaults destructured
at utils.ts lines 109-114. -/
structure RetryConfig where
  maxAttempts : Nat := 3
  initialDelayMs : ℚ := 1000
  backoffMultiplier : ℚ := 2
  maxDelayMs : ℚ := 30000
deriving DecidableEq

/-- The retry configuration obtained by passing `{}` (all defaults). -/
def defaultRetryConfig : RetryConfig := {}

/-- `delayMs = Math.min(delayMs * backoffMultiplier, maxDelayMs)`
(utils.ts line 142). -/
def nextDelay (cfg : RetryConfig) (d : ℚ) : ℚ :=
  min (d * cfg.backoffMultiplier) cfg.maxDelayMs

/-- The value of the mutable `delayMs` variable after `n` applications of
the update at utils.ts line 142, starting from seed `d`. -/
def delayStream (cfg : RetryConfig) : ℚ → Nat → ℚ
  | d, 0 => d
  | d, n + 1 => delayStream cfg (nextDelay cfg d) n

/-- The delay `retryWithBackoff` waits before the `(n+1)`-st retry:
`delayMs` starts at `initialDelayMs` (utils.ts line 117) and is updated by
`nextDelay` after each wait (utils.ts lines 139-142). -/
def delaySeq (cfg : RetryConfig) (n : Nat) : ℚ :=
  delayStream cfg cfg.initialDelayMs n

/-- Observable outcome of one `retryWithBackoff` run: the settled value,
how many times the wrapped operation was invoked, and the successive
delays waited between attempts. -/
structure RetryResult (α : Type) where
  result : Except JsError α
  calls : Nat
  waits : List ℚ

/-- The `for (let attempt = 1; attempt <= maxAttempts; attempt++)` loop of
utils.ts lines 119-149.  `attempt` is the current attempt number, the
second argument is the number of attempts still allowed
(`maxAttempts - attempt + 1`), and `delayMs` is the current backoff delay.
On a non-final failure the loop waits `delayMs` and retries with the
updated delay; on the final failure the last error is surfaced
(utils.ts line 151); with no attempts allowed the fallback error
`` `${operationName} failed after ${maxAttempts} attempts` `` is thrown. -/
def retryGo {α : Type} (op : Nat → Except Thrown α) (cfg : RetryConfig)
    (operationName : String) : Nat → Nat → ℚ → RetryResult α
  | _, 0, _ =>
      ⟨.error ⟨operationName ++ " failed after " ++ toString cfg.maxAttempts ++ " attempts"⟩,
        0, []⟩
  | attempt, fuel + 1, delayMs =>
      match op attempt with
      | .ok v => ⟨.ok v, 1, []⟩
      | .error t =>
          if fuel = 0 then
            ⟨.error (normalizeThrown t), 1, []⟩
          else
            let next := retryGo op cfg operationName (attempt + 1) fuel (nextDelay cfg delayMs)
            ⟨next.result, next.calls + 1, delayMs :: next.waits⟩

/-- `retryWithBackoff` from utils.ts lines 104-152, as a function of an
attempt-indexed operation oracle. -/
def retryWithBackoff {α : Type} (op : Nat → Except Thrown α) (operationName : String)
    (cfg : RetryConfig) : RetryResult α :=
  retryGo op cfg operationName 1 cfg.maxAttempts cfg.initialDelayMs

/-- `true` iff an attempt resolved (did not throw). -/
def attemptOk {α : Type} : Except Thrown α → Bool
  | .ok _ => true
  | .error _ => false

theorem attemptOk_false {α : Type} (r : Except Thrown α) (h : attemptOk r = false) :
    ∃ t, r = .error t := by
  cases r with
  | ok v => simp [attemptOk] at h
  | error t => exact ⟨t, rfl⟩

/-- One-step unfolding of the loop: a successful attempt stops it. -/
theorem retryGo_ok {α : Type} (op : Nat → Except Thrown α) (cfg : RetryConfig)
    (name : String) (attempt fuel : Nat) (d : ℚ) (v : α) (h : op attempt = .ok v) :
    retryGo op cfg name attempt (fuel + 1) d = ⟨.ok v, 1, []⟩ := by
  simp [retryGo, h]

/-- One-step unfolding of the loop: a failure on the final allowed attempt
surfaces the normalized error. -/
theorem retryGo_last {α : Type} (op : Nat → Except Thrown α) (cfg : RetryConfig)
    (name : String) (attempt : Nat) (d : ℚ) (t : Thrown) (h : op attempt = .error t) :
    retryGo op cfg name attempt 1 d = ⟨.error (normalizeThrown t), 1, []⟩ := by
  simp [retryGo, h]

/-- One-step unfolding of the loop: a non-final failure waits `d` and
retries with the updated delay. -/
theorem retryGo_step {α : Type} (op : Nat → Except Thrown α) (cfg : RetryConfig)
    (name : String) (attempt fuel : Nat) (d : ℚ) (t : Thrown)
    (h : op attempt = .error t) (hf : fuel ≠ 0) :
    retryGo op cfg name attempt (fuel + 1) d =
      ⟨(retryGo op cfg name (attempt + 1) fuel (nextDelay cfg d)).result,
        (retryGo op cfg name (attempt + 1) fuel (nextDelay cfg d)).calls + 1,
        d :: (retryGo op cfg name (attempt + 1) fuel (nextDelay cfg d)).waits⟩ := by
  simp [retryGo, h, hf]

/-- If the operation fails on attempts `attempt, …, attempt+k-1` and succeeds
on attempt `attempt+k`, with at least `k+1` attempts still allowed, the loop
makes exactly `k+1` calls and returns the success value. -/
theorem retryGo_ok_after {α : Type} (op : Nat → Except Thrown α) (cfg : RetryConfig)
    (name : String) :
    ∀ (k fuel attempt : Nat) (d : ℚ) (v : α), k < fuel →
      (∀ i, i < k → attemptOk (op (attempt + i)) = false) →
      op (attempt + k) = .ok v →
      (retryGo op cfg name attempt fuel d).result = .ok v ∧
      (retryGo op cfg name attempt fuel d).calls = k + 1 := by
  intro k
  induction k with
  | zero =>
      intro fuel attempt d v hk _ hsucc
      obtain ⟨f, rfl⟩ : ∃ f, fuel = f + 1 := ⟨fuel - 1, by omega⟩
      rw [Nat.add_zero] at hsucc
      simp [retryGo, hsucc]
  | succ k ih =>
      intro fuel attempt d v hk hfail hsucc
      obtain ⟨f, rfl⟩ : ∃ f, fuel = f + 1 := ⟨fuel - 1, by omega⟩
      have h0 : attemptOk (op (attempt + 0)) = false := hfail 0 (by omega)
      rw [Nat.add_zero] at h0
      obtain ⟨t, ht⟩ := attemptOk_false _ h0
      have hf : f ≠ 0 := by omega
      have hrec := ih f (attempt + 1) (nextDelay cfg d) v (by omega)
        (fun i hi => by
          have h := hfail (i + 1) (by omega)
          rwa [show attempt + (i + 1) = attempt + 1 + i by omega] at h)
        (by rwa [show attempt + 1 + k = attempt + (k + 1) by omega])
      obtain ⟨f1, rfl⟩ : ∃ f1, f = f1 + 1 := ⟨f - 1, by omega⟩
      rw [retryGo_step op cfg name attempt (f1 + 1) d t ht (by omega)]
      exact ⟨hrec.1, by rw [hrec.2]⟩

/-- If the operation fails on all of the `f+1` attempts
`attempt, …, attempt+f`, the loop makes exactly `f+1` calls and surfaces the
normalization of the value thrown on the final attempt. -/
theorem retryGo_all_fail {α : Type} (op : Nat → Except Thrown α) (cfg : RetryConfig)
    (name : String) :
    ∀ (f attempt : Nat) (d : ℚ) (t : Thrown),
      (∀ i, i < f + 1 → attemptOk (op (attempt + i)) = false) →
      op (attempt + f) = .error t →
      (retryGo op cfg name attempt (f + 1) d).result = .error (normalizeThrown t) ∧
      (retryGo op cfg name attempt (f + 1) d).calls = f + 1 := by
  intro f
  induction f with
  | zero =>
      intro attempt d t _ hlast
      rw [Nat.add_zero] at hlast
      simp [retryGo, hlast]
  | succ f ih =>
      intro attempt d t hfail hlast
      have h0 : attemptOk (op (attempt + 0)) = false := hfail 0 (by omega)
      rw [Nat.add_zero] at h0
      obtain ⟨t0, ht0⟩ := attemptOk_false _ h0
      have hrec := ih (attempt + 1) (nextDelay cfg d) t
        (fun i hi => by
          have h := hfail (i + 1) (by omega)
          rwa [show attempt + (i + 1) = attempt + 1 + i by omega] at h)
        (by rwa [show attempt + 1 + f = attempt + (f + 1) by omega])
      rw [retryGo_step op cfg name attempt (f + 1) d t0 ht0 (by omega)]
      exact ⟨hrec.1, by rw [hrec.2]⟩

/-- C3: for every retry policy and attempt-indexed operation, if the
operation fails on its first `k` attempts with `k < maxAttempts` and then
succeeds, `retryWithBackoff` invokes it exactly `k+1` times and returns its
success value; if it fails on every one of the `maxAttempts ≥ 1` attempts,
it is invoked exactly `maxAttempts` times and the rejection's message is the
message of the last underlying error, non-`Error` thrown values having been
normalized by stringifying. -/
theorem retryWithBackoff_contract {α : Type} (op : Nat → Except Thrown α)
    (name : String) (cfg : RetryConfig) :
    (∀ (k : Nat) (v : α), k < cfg.maxAttempts →
      (∀ i, i < k → attemptOk (op (i + 1)) = false) →
      op (k + 1) = .ok v →
      (retryWithBackoff op name cfg).result = .ok v ∧
      (retryWithBackoff op name cfg).calls = k + 1) ∧
    (∀ t : Thrown, 1 ≤ cfg.maxAttempts →
      (∀ i, i < cfg.maxAttempts → attemptOk (op (i + 1)) = false) →
      op cfg.maxAttempts = .error t →
      (retryWithBackoff op name cfg).result = .error ⟨(normalizeThrown t).message⟩ ∧
      (retryWithBackoff op name cfg).calls = cfg.maxAttempts) := by
  constructor
  · intro k v hk hfail hsucc
    exact retryGo_ok_after op cfg name k cfg.maxAttempts 1 cfg.initialDelayMs v hk
      (fun i hi => by rw [show 1 + i = i + 1 by omega]; exact hfail i hi)
      (by rwa [show 1 + k = k + 1 by omega])
  · intro t hM hfail hlast
    obtain ⟨f, hf⟩ : ∃ f, cfg.maxAttempts = f + 1 := ⟨cfg.maxAttempts - 1, by omega⟩
    have hrec := retryGo_all_fail op cfg name f 1 cfg.initialDelayMs t
      (fun i hi => by rw [show 1 + i = i + 1 by omega]; exact hfail i (by omega))
      (by rw [show 1 + f = f + 1 by omega, ← hf]; exact hlast)
    unfold retryWithBackoff
    rw [hf]
    exact hrec

/-- An operation that throws a proper `Error` on its first two attempts and
resolves with `7` from the third attempt on. -/
def opFailTwice : Nat → Except Thrown Nat :=
  fun i => if i ≤ 2 then .error (.err ⟨"ETIMEDOUT"⟩) else .ok 7

/-- An operation that always throws the non-`Error` value `"boom"`. -/
def opAlwaysFail : Nat → Except Thrown Nat :=
  fun _ => .error (.nonError "boom")

/-- Witness for C3 at the default policy: two transient failures then
success gives 3 calls and the value; permanent failure gives 3 calls and
the stringified last error. -/
theorem retryWithBackoff_contract_witness :
    ((retryWithBackoff opFailTwice "download smctl" defaultRetryConfig).result = .ok 7 ∧
      (retryWithBackoff opFailTwice "download smctl" defaultRetryConfig).calls = 3) ∧
    ((retryWithBackoff opAlwaysFail "download smctl" defaultRetryConfig).result =
        .error ⟨"boom"⟩ ∧
      (retryWithBackoff opAlwaysFail "download smctl" defaultRetryConfig).calls = 3) :=
  ⟨(retryWithBackoff_contract opFailTwice "download smctl" defaultRetryConfig).1 2 7
      (by decide) (by decide) (by rfl),
    (retryWithBackoff_contract opAlwaysFail "download smctl" defaultRetryConfig).2
      (.nonError "boom") (by decide) (by decide) (by rfl)⟩

/-- Unfolding `delayStream` at the far end. -/
theorem delayStream_succ (cfg : RetryConfig) (d : ℚ) (n : Nat) :
    delayStream cfg d (n + 1) = nextDelay cfg (delayStream cfg d n) := by
  induction n generalizing d with
  | zero => rfl
  | succ n ih =>
      show delayStream cfg (nextDelay cfg d) (n + 1) = _
      rw [ih]
      rfl

/-- The delays waited by the retry loop are successive values of
`delayStream` seeded with the loop's current delay. -/
theorem retryGo_waits {α : Type} (op : Nat → Except Thrown α) (cfg : RetryConfig)
    (name : String) :
    ∀ (fuel attempt : Nat) (d : ℚ) (j : Nat),
      j < (retryGo op cfg name attempt fuel d).waits.length →
      (retryGo op cfg name attempt fuel d).waits.getD j 0 = delayStream cfg d j := by
  intro fuel
  induction fuel with
  | zero =>
      intro attempt d j hj
      simp [retryGo] at hj
  | succ fuel ih =>
      intro attempt d j hj
      cases hop : op attempt with
      | ok v =>
          rw [retryGo_ok op cfg name attempt fuel d v hop] at hj
          simp at hj
      | error t =>
          by_cases hf : fuel = 0
          · subst hf
            simp [retryGo, hop] at hj
          · rw [retryGo_step op cfg name attempt fuel d t hop hf] at hj ⊢
            cases j with
            | zero => simp [delayStream]
            | succ j =>
                simp only [List.getD_cons_succ]
                have hj2 : j < (retryGo op cfg name (attempt + 1) fuel
                    (nextDelay cfg d)).waits.length := by
                  simpa using hj
                rw [ih (attempt + 1) (nextDelay cfg d) j hj2]
                rfl

/-- Closed form of the delay sequence when the initial delay does not exceed
the cap and the multiplier is at least one. -/
theorem delaySeq_closed_form (cfg : RetryConfig) (h0 : 0 ≤ cfg.initialDelayMs)
    (h1 : cfg.initialDelayMs ≤ cfg.maxDelayMs) (h2 : 1 ≤ cfg.backoffMultiplier) :
    ∀ n, delaySeq cfg n =
      min (cfg.initialDelayMs * cfg.backoffMultiplier ^ n) cfg.maxDelayMs := by
  intro n
  induction n with
  | zero =>
      simp [delaySeq, delayStream, min_eq_left h1]
  | succ n ih =>
      have hstep : delaySeq cfg (n + 1) = nextDelay cfg (delaySeq cfg n) :=
        delayStream_succ cfg _ n
      rw [hstep, ih, nextDelay]
      rcases le_total (cfg.initialDelayMs * cfg.backoffMultiplier ^ n) cfg.maxDelayMs with h | h
      · rw [min_eq_left h, pow_succ, ← mul_assoc]
      · have hc0 : 0 ≤ cfg.maxDelayMs := le_trans h0 h1
        have hpos : 0 ≤ cfg.initialDelayMs * cfg.backoffMultiplier ^ n := le_trans hc0 h
        have hgrow : cfg.initialDelayMs * cfg.backoffMultiplier ^ n ≤
            cfg.initialDelayMs * cfg.backoffMultiplier ^ (n + 1) := by
          rw [pow_succ, ← mul_assoc]
          exact le_mul_of_one_le_right hpos h2
        rw [min_eq_right h, min_eq_right (le_mul_of_one_le_right hc0 h2),
          min_eq_right (le_trans h hgrow)]

/-- A legal `RetryConfig` whose initial delay exceeds the delay cap. -/
def capBelowInitialConfig : RetryConfig :=
  { maxAttempts := 3, initialDelayMs := 40000, backoffMultiplier := 2, maxDelayMs := 30000 }

/-- C4 counterexample: with initialDelayMs = 40000 above maxDelayMs = 30000
(multiplier 2, three attempts) the delay before the first retry is 40000,
not min(40000·2⁰, 30000) = 30000 as the claim states, and the successive
waits [40000, 30000] strictly decrease, refuting the monotonicity conjunct
as well. -/
theorem backoff_delay_counterexample :
    (retryWithBackoff (fun _ => (.error (.nonError "ETIMEDOUT") : Except Thrown Unit))
        "download" capBelowInitialConfig).waits = [40000, 30000] ∧
    delaySeq capBelowInitialConfig 0 = 40000 ∧
    min (capBelowInitialConfig.initialDelayMs * capBelowInitialConfig.backoffMultiplier ^ 0)
        capBelowInitialConfig.maxDelayMs = 30000 ∧
    ¬ delaySeq capBelowInitialConfig 0 ≤ delaySeq capBelowInitialConfig 1 := by
  have hnd : nextDelay capBelowInitialConfig 40000 = 30000 := by
    norm_num [nextDelay, capBelowInitialConfig, min_def]
  have hnd2 : nextDelay capBelowInitialConfig 30000 = 30000 := by
    norm_num [nextDelay, capBelowInitialConfig, min_def]
  refine ⟨?_, rfl, ?_, ?_⟩
  · show (retryGo (fun _ => (.error (.nonError "ETIMEDOUT") : Except Thrown Unit))
        capBelowInitialConfig "download" 1 3 40000).waits = [40000, 30000]
    rw [show (3 : Nat) = 2 + 1 from rfl,
      retryGo_step _ capBelowInitialConfig "download" 1 2 40000 (.nonError "ETIMEDOUT")
        rfl (by omega)]
    rw [hnd, show (2 : Nat) = 1 + 1 from rfl,
      retryGo_step _ capBelowInitialConfig "download" (1 + 1) 1 30000 (.nonError "ETIMEDOUT")
        rfl (by omega)]
    rw [hnd2,
      retryGo_last _ capBelowInitialConfig "download" (1 + 1 + 1) 30000 (.nonError "ETIMEDOUT")
        rfl]
  · norm_num [capBelowInitialConfig, min_def]
  · norm_num [delaySeq, delayStream, nextDelay, capBelowInitialConfig, min_def]

/-- C4 (amended): provided 0 ≤ initialDelayMs ≤ maxDelayMs and
backoffMultiplier ≥ 1, the delay `retryWithBackoff` waits before the n-th
retry equals min(initialDelayMs · backoffMultiplier^(n−1), maxDelayMs)
(index `j := n − 1` below), the delay sequence is monotonically
non-decreasing, and the delays actually waited in any run are exactly this
sequence. -/
theorem backoff_delay_amended (cfg : RetryConfig) (h0 : 0 ≤ cfg.initialDelayMs)
    (h1 : cfg.initialDelayMs ≤ cfg.maxDelayMs) (h2 : 1 ≤ cfg.backoffMultiplier) :
    (∀ j, delaySeq cfg j =
      min (cfg.initialDelayMs * cfg.backoffMultiplier ^ j) cfg.maxDelayMs) ∧
    (∀ j, delaySeq cfg j ≤ delaySeq cfg (j + 1)) ∧
    (∀ (op : Nat → Except Thrown Unit) (name : String) (j : Nat),
      j < (retryWithBackoff op name cfg).waits.length →
      (retryWithBackoff op name cfg).waits.getD j 0 = delaySeq cfg j) := by
  refine ⟨delaySeq_closed_form cfg h0 h1 h2, ?_, ?_⟩
  · intro j
    rw [delaySeq_closed_form cfg h0 h1 h2 j, delaySeq_closed_form cfg h0 h1 h2 (j + 1)]
    have hm0 : 0 ≤ cfg.backoffMultiplier ^ j :=
      pow_nonneg (le_trans zero_le_one h2) j
    have hgrow : cfg.initialDelayMs * cfg.backoffMultiplier ^ j ≤
        cfg.initialDelayMs * cfg.backoffMultiplier ^ (j + 1) := by
      rw [pow_succ]
      exact mul_le_mul_of_nonneg_left (le_mul_of_one_le_right hm0 h2) h0
    exact min_le_min hgrow le_rfl
  · intro op name j hj
    exact retryGo_waits op cfg name cfg.maxAttempts 1 cfg.initialDelayMs j hj

/-- Witness for the amended C4 at the default configuration
(1000 ms initial, multiplier 2, cap 30000 ms). -/
theorem backoff_delay_amended_witness :
    (0 : ℚ) ≤ defaultRetryConfig.initialDelayMs ∧
    defaultRetryConfig.initialDelayMs ≤ defaultRetryConfig.maxDelayMs ∧
    (1 : ℚ) ≤ defaultRetryConfig.backoffMultiplier ∧
    delaySeq defaultRetryConfig 3 =
      min (defaultRetryConfig.initialDelayMs * defaultRetryConfig.backoffMultiplier ^ 3)
        defaultRetryConfig.maxDelayMs :=
  ⟨by norm_num [defaultRetryConfig], by norm_num [defaultRetryConfig],
    by norm_num [defaultRetryConfig],
    (backoff_delay_amended defaultRetryConfig (by norm_num [defaultRetryConfig])
      (by norm_num [defaultRetryConfig]) (by norm_num [defaultRetryConfig])).1 3⟩

/-! ## Archive extraction dispatchers

Each dispatcher is embedded over outcome oracles for its effectful steps
(file-system call, archive tool, post-extract callback).  The
`tmpDirReleased` field records whether `rmDir` was invoked on the scoped
temporary directory allocated by `randomTmpDir()`. -/

/-- Observable outcome of one dispatcher run on the scoped temporary
directory it allocates. -/
structure ExtractRun where
  result : Except JsError String
  callbackInvoked : Bool
  tmpDirReleased : Bool

/-- `wrapInDirectory` from file_noop_setup.ts lines 5-11: `fs.mkdir(tmpDir)`,
`fs.copyFile(src, path.join(tmpDir, target))`, `await callback(tmpDir)`,
`return tmpDir`.  No `rmDir` appears on any path, so a rejection anywhere
propagates with the directory left in place. -/
def wrapInDirectory (mkdirAndCopy : Except Thrown Unit) (callback : Except Thrown Unit)
    (tmpDir : String) : ExtractRun :=
  match mkdirAndCopy with
  | .error t => ⟨.error (normalizeThrown t), false, false⟩
  | .ok _ =>
      match callback with
      | .error t => ⟨.error (normalizeThrown t), true, false⟩
      | .ok _ => ⟨.ok tmpDir, true, false⟩

/-- `extractZip` from zip_setup.ts lines 5-10 (and the second revision at
lines 21-28, where the `rmDir(tmpDir)` call is commented out):
`const rv = await tc.extractZip(path, tmpDir); await callback(rv);
return tmpDir;`.  `tcExtract` is the outcome of `tc.extractZip`, carrying
the extraction directory `rv` it reports. -/
def extractZip (tcExtract : Except Thrown String) (callback : Except Thrown Unit)
    (tmpDir : String) : ExtractRun :=
  match tcExtract with
  | .error t => ⟨.error (normalizeThrown t), false, false⟩
  | .ok _rv =>
      match callback with
      | .error t => ⟨.error (normalizeThrown t), true, false⟩
      | .ok _ => ⟨.ok tmpDir, true, false⟩

/-- `extractTar` from zip_setup.ts lines 12-17 (second revision lines
30-37): identical control flow to `extractZip` over `tc.extractTar`. -/
def extractTar (tcExtract : Except Thrown String) (callback : Except Thrown Unit)
    (tmpDir : String) : ExtractRun :=
  match tcExtract with
  | .error t => ⟨.error (normalizeThrown t), false, false⟩
  | .ok _rv =>
      match callback with
      | .error t => ⟨.error (normalizeThrown t), true, false⟩
      | .ok _ => ⟨.ok tmpDir, true, false⟩

/-- C2 counterexample: on the plain-file wrap, Zip and Tar paths the scoped
temporary directory is released on NO exit path — neither after a normal
callback return nor when the callback or the extraction throws — because
the `rmDir(tmpDir)` call is absent (commented out in zip_setup.ts). -/
theorem extraction_release_counterexample :
    (wrapInDirectory (.ok ()) (.ok ()) "/tmp/D_w").tmpDirReleased = false ∧
    (wrapInDirectory (.ok ()) (.error (.err ⟨"callback failed"⟩)) "/tmp/D_w").tmpDirReleased
      = false ∧
    (extractZip (.ok "/tmp/D_z") (.ok ()) "/tmp/D_z").tmpDirReleased = false ∧
    (extractZip (.ok "/tmp/D_z") (.error (.err ⟨"callback failed"⟩)) "/tmp/D_z").tmpDirReleased
      = false ∧
    (extractZip (.error (.err ⟨"bad archive"⟩)) (.ok ()) "/tmp/D_z").tmpDirReleased = false ∧
    (extractTar (.ok "/tmp/D_t") (.ok ()) "/tmp/D_t").tmpDirReleased = false ∧
    (extractTar (.ok "/tmp/D_t") (.error (.err ⟨"callback failed"⟩)) "/tmp/D_t").tmpDirReleased
      = false :=
  ⟨rfl, rfl, rfl, rfl, rfl, rfl, rfl⟩

/-- C2 (amended): the plain-file wrap, Zip and Tar dispatchers never release
their scoped temporary extraction directory on any exit path; on a normal
callback return the directory is returned to the caller (which consumes it
via `tc.cacheDir`), and a callback exception propagates with the directory
left in place. -/
theorem extraction_never_released (mk cb : Except Thrown Unit)
    (ext : Except Thrown String) (rv d : String) :
    ((wrapInDirectory mk cb d).tmpDirReleased = false ∧
      (extractZip ext cb d).tmpDirReleased = false ∧
      (extractTar ext cb d).tmpDirReleased = false) ∧
    ((wrapInDirectory (.ok ()) (.ok ()) d).result = .ok d ∧
      (extractZip (.ok rv) (.ok ()) d).result = .ok d ∧
      (extractTar (.ok rv) (.ok ()) d).result = .ok d) ∧
    (∀ t : Thrown,
      (wrapInDirectory (.ok ()) (.error t) d).result = .error (normalizeThrown t) ∧
      (extractZip (.ok rv) (.error t) d).result = .error (normalizeThrown t) ∧
      (extractTar (.ok rv) (.error t) d).result = .error (normalizeThrown t)) := by
  refine ⟨⟨?_, ?_, ?_⟩, ⟨rfl, rfl, rfl⟩, fun t => ⟨rfl, rfl, rfl⟩⟩
  · cases mk with
    | error t => rfl
    | ok u => cases cb <;> rfl
  · cases ext with
    | error t => rfl
    | ok r => cases cb <;> rfl
  · cases ext with
    | error t => rfl
    | ok r => cases cb <;> rfl

/-! ## DMG dispatcher -/

/-- Observable outcome of one `extractDmg` run. -/
structure DmgRun where
  result : Except JsError String
  callbackInvoked : Bool
  unmountAttempts : Nat

/-- `extractDmg` from macos_dmg_setup.ts lines 6-35: mount with
`hdiutil attach`; on success set `mounted = true`, run the callback and
return the volume; the `finally` block attempts `hdiutil detach` exactly
when `mounted`, swallowing any unmount failure (it only logs a warning). -/
def extractDmg (mount : Except Thrown Unit) (callback : Except Thrown Unit)
    (_unmount : Except Thrown Unit) (volume : String) : DmgRun :=
  match mount with
  | .error t => ⟨.error (normalizeThrown t), false, 0⟩
  | .ok _ =>
      match callback with
      | .ok _ => ⟨.ok volume, true, 1⟩
      | .error t => ⟨.error (normalizeThrown t), true, 1⟩

/-- C6: if mounting succeeds, unmounting is attempted exactly once —
whatever the unmount outcome and even when the callback throws, in which
case the callback's exception still propagates after the unmount attempt;
if mounting fails, the callback is never invoked and unmounting is never
attempted. -/
theorem extractDmg_unmount_contract (cb un : Except Thrown Unit) (v : String) :
    ((extractDmg (.ok ()) cb un v).unmountAttempts = 1 ∧
      (∀ t : Thrown,
        (extractDmg (.ok ()) (.error t) un v).result = .error (normalizeThrown t) ∧
        (extractDmg (.ok ()) (.error t) un v).unmountAttempts = 1) ∧
      (extractDmg (.ok ()) (.ok ()) un v).result = .ok v) ∧
    (∀ t : Thrown,
      (extractDmg (.error t) cb un v).callbackInvoked = false ∧
      (extractDmg (.error t) cb un v).unmountAttempts = 0 ∧
      (extractDmg (.error t) cb un v).result = .error (normalizeThrown t)) := by
  refine ⟨⟨?_, fun t => ⟨rfl, rfl⟩, rfl⟩, fun t => ⟨rfl, rfl, rfl⟩⟩
  cases cb <;> rfl

/-! ## MSI dispatcher (windows_msi_setup.ts, src/unnamed/part_005)

`exec.getExecOutput` is modelled the way the repository's own test harness
models it (tests/__mocks__/@actions/exec.ts and the MSI tests in
tests/unit/zip_setup.test.ts): it resolves with the process exit code; a
crash of the runner itself is an `error`. -/

/-- Outcome oracles of one `installMsi` run. -/
structure MsiEnv where
  uninstallExec : Except Thrown Int
  installExec : Except Thrown Int
  logContent : Except Thrown String
  callback : Except Thrown Unit

/-- `uninstallExistingMsi` (part_005 lines 8-37): runs `msiexec /x` with
`ignoreReturnCode`; exit 0 reports `true`; exit 1605 ("this action is only
valid for products that are currently installed") is logged as "no existing
installation" and reports `false`; any other exit code or a crash is logged
as a warning and reports `false`.  The promise never rejects. -/
def uninstallExistingMsi (uninstallExec : Except Thrown Int) : Bool :=
  match uninstallExec with
  | .ok 0 => true
  | .ok _ => false
  | .error _ => false

/-- The error-message prefix `` `Installation of ${src} failed. ` `` used at
part_005 lines 56, 66 and 68. -/
def msiFailText (src : String) : String :=
  "Installation of " ++ src ++ " failed. "

/-- Observable outcome of one `installMsi` run. -/
structure MsiRun where
  result : Except JsError String
  installAttempted : Bool
  callbackInvoked : Bool

/-- `installMsi` (part_005 lines 39-71): first `uninstallExistingMsi` runs
and its outcome is discarded; then `msiexec /i` runs with an installer log.
In the `.then` handler a non-zero exit code reads the log and throws
`` `Installation of ${src} failed. ${content}` ``; exit 0 awaits the
callback and resolves with the install directory.  Any rejection reaches
the `.catch` handler, whose inner `throw` of the log-bearing error sits
inside its own `try` and is therefore caught by the bare `catch`, so the
catch always re-throws `` `Installation of ${src} failed. ${error}` `` with
the original rejection stringified into the message. -/
def installMsi (src tmpDir : String) (env : MsiEnv) : MsiRun :=
  let _prior := uninstallExistingMsi env.uninstallExec
  let cbInvoked : Bool :=
    match env.installExec, env.callback with
    | .ok 0, _ => true
    | _, _ => false
  let thenOutcome : Except Thrown String :=
    match env.installExec with
    | .error t => .error t
    | .ok code =>
        if code = 0 then
          match env.callback with
          | .ok _ => .ok tmpDir
          | .error t => .error t
        else
          match env.logContent with
          | .ok content => .error (.err ⟨msiFailText src ++ content⟩)
          | .error t => .error t
  { result :=
      match thenOutcome with
      | .ok dir => .ok dir
      | .error t => .error ⟨msiFailText src ++ stringOfThrown t⟩,
    installAttempted := true,
    callbackInvoked := cbInvoked }

/-- C7: an uninstall attempt whose `msiexec` exit code is 1605 is non-fatal
(`uninstallExistingMsi` reports `false` instead of rejecting) and the
install step still runs, with the same outcome as under any other uninstall
result; and a non-zero install exit code with a readable installer log
makes `installMsi` reject with an error whose message contains the log
content. -/
theorem installMsi_contract (src tmpDir : String) (env : MsiEnv) :
    (uninstallExistingMsi (.ok 1605) = false ∧
      (installMsi src tmpDir { env with uninstallExec := .ok 1605 }).installAttempted = true ∧
      (installMsi src tmpDir { env with uninstallExec := .ok 1605 }).result =
        (installMsi src tmpDir env).result) ∧
    (∀ (code : Int) (content : String), code ≠ 0 →
      env.installExec = .ok code → env.logContent = .ok content →
      ∃ e : JsError, (installMsi src tmpDir env).result = .error e ∧
        ∃ a : String, e.message = a ++ content) := by
  refine ⟨⟨rfl, rfl, rfl⟩, ?_⟩
  intro code content hcode hinst hlog
  refine ⟨⟨msiFailText src ++ stringOfThrown (.err ⟨msiFailText src ++ content⟩)⟩, ?_, ?_⟩
  · simp [installMsi, hinst, hlog, if_neg hcode]
  · refine ⟨msiFailText src ++ "Error: " ++ msiFailText src, ?_⟩
    simp [stringOfThrown, String.append_assoc]

/-- A concrete MSI environment: prior uninstall exits 1605, the install
exits 1603 and the installer log is readable. -/
def msiEnv1605 : MsiEnv :=
  ⟨.ok 1605, .ok 1603, .ok "ERROR: insufficient permissions", .ok ()⟩

/-- Witness for C7: uninstall exit 1605 is reported non-fatally, install
still runs, and the exit-1603 rejection's message contains the log text. -/
theorem installMsi_contract_witness :
    uninstallExistingMsi (.ok 1605) = false ∧
    (installMsi "smtools-windows-x64.msi" "/tmp/D_m" msiEnv1605).installAttempted = true ∧
    ∃ e : JsError,
      (installMsi "smtools-windows-x64.msi" "/tmp/D_m" msiEnv1605).result = .error e ∧
      ∃ a : String, e.message = a ++ "ERROR: insufficient permissions" :=
  ⟨(installMsi_contract "smtools-windows-x64.msi" "/tmp/D_m" msiEnv1605).1.1,
    (installMsi_contract "smtools-windows-x64.msi" "/tmp/D_m" msiEnv1605).1.2.1,
    (installMsi_contract "smtools-windows-x64.msi" "/tmp/D_m" msiEnv1605).2 1603
      "ERROR: insufficient permissions" (by decide) rfl rfl⟩

/-! ## Orchestrator (tool_setup.ts, src/unnamed/part_007)

`cachedSetup` and `setupTool` are embedded over attempt-indexed outcome
oracles for their network calls (`tc.downloadTool`, `cache.restoreCache`,
`cache.saveCache`) and an explicit local tool-cache state.  Side effects
that touch neither the network nor the cache state (`chmod`,
`createSymlink`, `walk`, `core.addPath`, logging) do not affect the
observables below and are elided. -/

/-- `ToolType` from part_007 lines 31-35. -/
inductive ToolType where
  | library
  | executable
  | archive
deriving DecidableEq

/-- `ArchiveType` from part_007 lines 37-43 (`NONE = "FILE"`). -/
inductive ArchiveType where
  | file
  | dmg
  | msi
  | tar
  | zip
deriving DecidableEq

/-- The fields of `ToolMetadata` (part_007 lines 45-60) read by the
embedded orchestrator code. -/
structure ToolMetadata where
  name : String
  fName : String
  dlName : String
  toolType : ToolType
  archived : Bool
  archiveType : ArchiveType
  explodedDirectoryName : Option String := none
  executePermissionRequired : Bool := false
  needPKCS11Config : Bool := false

/-- The `smctl-linux-x64` catalog entry (part_007 line 155). -/
def smctlLinuxMeta : ToolMetadata :=
  { name := "smctl", fName := "smctl", dlName := "smctl",
    toolType := .executable, archived := false, archiveType := .file,
    executePermissionRequired := true }

/-- The configuration values the orchestrator reads from its host
(`core.getInput` / `core.getBooleanInput`) plus the `RUNNER_TOOL_CACHE`
environment value exported as `toolCacheDir` by utils. -/
structure ActionInputs where
  cacheVersion : String
  digicertCdn : String
  useBinarySha256Checksum : Bool
  useGithubCachingService : Bool
  runnerToolCache : Option String

/-- Attempt-indexed outcome oracles for the effectful steps of one
acquisition.  `checksumFetch` is `tc.downloadTool(url + ".sha256")`
followed by reading the downloaded file; `toolDownload` is
`tc.downloadTool(url)`; `extraction` is the archive dispatcher
(`postDownload`); `restore` and `save` are the remote cache provider. -/
structure NetEnv where
  checksumFetch : Nat → Except Thrown String
  toolDownload : Nat → Except Thrown String
  extraction : Except Thrown String
  restore : Nat → Except Thrown (Option String)
  save : Nat → Except Thrown Nat

/-- `downloadUrl` from part_007 lines 232-235. -/
def downloadUrl (inp : ActionInputs) (tool : ToolMetadata) : String :=
  inp.digicertCdn ++ "/" ++ tool.dlName

/-- JavaScript `s.split(c)` for a single-character separator: split at every
occurrence, adjacent separators yielding empty pieces, the empty string
yielding `[""]`. -/
def splitChar (c : Char) : List Char → List (List Char)
  | [] => [[]]
  | x :: xs =>
      if x = c then [] :: splitChar c xs
      else
        match splitChar c xs with
        | [] => [[x]]
        | y :: ys => (x :: y) :: ys

/-- JavaScript `s.trim()`: drop leading and trailing whitespace. -/
def trimChars (l : List Char) : List Char :=
  ((l.dropWhile Char.isWhitespace).reverse.dropWhile Char.isWhitespace).reverse

/-- `content.split(' ')[0].trim()` from part_007 line 271. -/
def jsSplitFirstTrim (content : String) : String :=
  String.mk (trimChars ((splitChar ' ' content.data).headD []))

/-- The version-resolution block of `cachedSetup` (part_007 lines 263-279)
together with the number of checksum-file downloads it performs: when
`use-binary-sha256-checksum` is set, `tc.downloadTool` is called directly —
not through `retryWithBackoff` — so exactly one attempt is consumed, the
downloaded content is split on the space character, the first piece is
trimmed and prefixed with `"0.0.0-"`; on any rejection the declared
`cache-version` is used instead and no error escapes. -/
def resolveVersion (inp : ActionInputs) (env : NetEnv) : String × Nat :=
  if inp.useBinarySha256Checksum then
    match env.checksumFetch 1 with
    | .ok content => ("0.0.0-" ++ jsSplitFirstTrim content, 1)
    | .error _ => (inp.cacheVersion, 1)
  else
    (inp.cacheVersion, 0)

/-- The local tool cache: entries `(toolName, version) ↦ cached path`. -/
abbrev LocalCache : Type := List ((String × String) × String)

/-- `tc.find(toolName, version)`. -/
def tcFind (c : LocalCache) (name version : String) : Option String :=
  (List.find? (fun e => e.1.1 == name && e.1.2 == version) c).map (fun e => e.2)

/-- The destination `tc.cacheDir` reports: the spec §6 layout
`{toolCacheRoot}/{toolName}/{version}`. -/
def cacheDirDest (root name version : String) : String :=
  root ++ "/" ++ name ++ "/" ++ version

/-- `tc.cacheDir(sourceDir, tool, version)`: copies `sourceDir` into the
layout path and registers the `(tool, version)` entry. -/
def tcCacheDir (c : LocalCache) (_sourceDir root name version : String) :
    LocalCache × String :=
  (((name, version), cacheDirDest root name version) :: c, cacheDirDest root name version)

/-- Observables of one `cachedSetup` run. -/
structure CachedSetupRun where
  result : Except JsError String
  cache : LocalCache
  checksumFetchCalls : Nat
  downloadCalls : Nat
  extractionRuns : Nat
  cacheDirCalls : Nat

/-- Part_007 lines 296-297: archived tools with a declared
`explodedDirectoryName` are cached from that subdirectory of the
dispatcher's output. -/
def cachePathOf (tool : ToolMetadata) (outputDir : String) : String :=
  match tool.archived, tool.explodedDirectoryName with
  | true, some sub => outputDir ++ "/" ++ sub
  | _, _ => outputDir

/-- `cachedSetup` from part_007 lines 256-332: resolve the version, look it
up with `tc.find`; a hit short-circuits to the cached path; on a miss,
`tc.downloadTool` is invoked directly (one attempt, line 287), the archive
is dispatched (`postDownload`, line 292), the output directory — descended
into `explodedDirectoryName` when one is declared (lines 296-297) — is
stored with `tc.cacheDir` (line 299), and the registered path is returned.
A rejection of the download or of the dispatcher propagates. -/
def cachedSetup (inp : ActionInputs) (tool : ToolMetadata) (env : NetEnv)
    (st : LocalCache) : CachedSetupRun :=
  match tcFind st tool.name (resolveVersion inp env).1 with
  | some toolPath => ⟨.ok toolPath, st, (resolveVersion inp env).2, 0, 0, 0⟩
  | none =>
      match env.toolDownload 1 with
      | .error t => ⟨.error (normalizeThrown t), st, (resolveVersion inp env).2, 1, 0, 0⟩
      | .ok _downloadedPath =>
          match env.extraction with
          | .error t => ⟨.error (normalizeThrown t), st, (resolveVersion inp env).2, 1, 1, 0⟩
          | .ok outputDir =>
              ⟨.ok (tcCacheDir st (cachePathOf tool outputDir) (inp.runnerToolCache.getD "")
                  tool.name (resolveVersion inp env).1).2,
                (tcCacheDir st (cachePathOf tool outputDir) (inp.runnerToolCache.getD "")
                  tool.name (resolveVersion inp env).1).1,
                (resolveVersion inp env).2, 1, 1, 1⟩

/-- The remote cache key built at part_007 line 363:
`` `${name}-${core.getInput('cache-version')}-${p.platform}-${p.arch}` `` —
from the raw `cache-version` input, not from the resolved version. -/
def remoteCacheKey (inp : ActionInputs) (name platform arch : String) : String :=
  name ++ "-" ++ inp.cacheVersion ++ "-" ++ platform ++ "-" ++ arch

/-- Observables of one `setupTool` run (for a tool present in the catalog). -/
structure SetupToolRun where
  result : Except JsError String
  cache : LocalCache
  remoteKey : String
  restoreCalls : Nat
  saveCalls : Nat
  inner : CachedSetupRun

/-- `setupTool` from part_007 lines 351-393 (with `setupToolInternal`,
lines 334-349), for a tool whose catalog lookup succeeded: compute
`tryGithubCache`, the remote cache key and the restore path; attempt
`cache.restoreCache` once when enabled (line 368, a direct call whose
rejection only logs); run `cachedSetup`; on success, executables get
`fName` joined onto the returned path (line 339), and when the remote cache
was attempted and missed, `cache.saveCache` is fired once (line 384, its
rejection only logs). -/
def setupTool (inp : ActionInputs) (name : String) (tool : ToolMetadata)
    (platform arch : String) (selfHosted cacheFeatureAvailable : Bool)
    (env : NetEnv) (st : LocalCache) : SetupToolRun :=
  let tryGithubCache := !selfHosted && cacheFeatureAvailable && inp.useGithubCachingService
  let cacheKey := remoteCacheKey inp name platform arch
  let cachePath := inp.runnerToolCache.map (fun r => r ++ "/" ++ tool.name)
  let attemptRestore := tryGithubCache && cachePath.isSome
  let cacheHit : Option String :=
    if attemptRestore then
      match env.restore 1 with
      | .ok h => h
      | .error _ => none
    else none
  let inner := cachedSetup inp tool env st
  { result :=
      match inner.result with
      | .error e => .error e
      | .ok tp => .ok (if tool.toolType = .executable then tp ++ "/" ++ tool.fName else tp),
    cache := inner.cache,
    remoteKey := cacheKey,
    restoreCalls := if attemptRestore then 1 else 0,
    saveCalls :=
      match inner.result with
      | .error _ => 0
      | .ok _ => if attemptRestore && cacheHit.isNone then 1 else 0,
    inner := inner }

/-! ## C1: are the network calls executed through the Retry Executor? -/

/-- Baseline inputs: checksum versioning off, remote cache off. -/
def plainInputs : ActionInputs :=
  { cacheVersion := "1.0.0", digicertCdn := "https://cdn.example/tools",
    useBinarySha256Checksum := false, useGithubCachingService := false,
    runnerToolCache := some "/opt/hostedtoolcache" }

/-- A CDN that fails the first download attempt with a transient error and
would succeed on every later attempt. -/
def transientDownloadEnv : NetEnv :=
  { checksumFetch := fun _ => .error (.err ⟨"unused"⟩),
    toolDownload := fun i => if i = 1 then .error (.err ⟨"ECONNRESET"⟩) else .ok "/tmp/F_dl",
    extraction := .ok "/tmp/D_out",
    restore := fun _ => .ok none,
    save := fun _ => .ok 1 }

/-- C1 counterexample: on a local-cache miss, `cachedSetup` surfaces a
single transient download failure after exactly one invocation of
`tc.downloadTool`, although the default retry policy allows 3 attempts —
`retryWithBackoff` on the very same operation succeeds on its second
attempt — so the tool download is not executed through the Retry Executor
and is not attempted up to `maxAttempts` times before its failure is
surfaced. -/
theorem retry_wrapping_counterexample :
    (cachedSetup plainInputs smctlLinuxMeta transientDownloadEnv []).result =
      .error ⟨"ECONNRESET"⟩ ∧
    (cachedSetup plainInputs smctlLinuxMeta transientDownloadEnv []).downloadCalls = 1 ∧
    defaultRetryConfig.maxAttempts = 3 ∧
    (retryWithBackoff transientDownloadEnv.toolDownload "Download smctl"
        defaultRetryConfig).result = .ok "/tmp/F_dl" ∧
    (retryWithBackoff transientDownloadEnv.toolDownload "Download smctl"
        defaultRetryConfig).calls = 2 := by
  refine ⟨rfl, rfl, rfl, ?_, ?_⟩ <;>
  · show _ = _
    rw [retryWithBackoff,
      show defaultRetryConfig.maxAttempts = 2 + 1 from rfl,
      retryGo_step transientDownloadEnv.toolDownload defaultRetryConfig "Download smctl"
        1 2 defaultRetryConfig.initialDelayMs (.err ⟨"ECONNRESET"⟩) rfl (by omega),
      show (2 : Nat) = 1 + 1 from rfl,
      retryGo_ok transientDownloadEnv.toolDownload defaultRetryConfig "Download smctl"
        (1 + 1) 1 (nextDelay defaultRetryConfig defaultRetryConfig.initialDelayMs)
        "/tmp/F_dl" rfl]

theorem resolveVersion_calls_le (inp : ActionInputs) (env : NetEnv) :
    (resolveVersion inp env).2 ≤ 1 := by
  unfold resolveVersion
  repeat' split
  all_goals simp

theorem cachedSetup_cases (inp : ActionInputs) (tool : ToolMetadata)
    (env : NetEnv) (st : LocalCache) :
    (cachedSetup inp tool env st).checksumFetchCalls = (resolveVersion inp env).2 ∧
    (cachedSetup inp tool env st).downloadCalls ≤ 1 := by
  unfold cachedSetup
  cases tcFind st tool.name (resolveVersion inp env).1 with
  | some p => exact ⟨rfl, by simp⟩
  | none =>
      cases env.toolDownload 1 with
      | error t => exact ⟨rfl, by simp⟩
      | ok p =>
          cases env.extraction with
          | error t => exact ⟨rfl, by simp⟩
          | ok o => exact ⟨rfl, by simp⟩

/-- C1 (amended): none of the downstream network calls of one acquisition
is executed through `retryWithBackoff`; the remote cache restore, the
remote cache save, the checksum fetch and the tool download are each
invoked at most once (never retried), and on a local-cache miss the failure
of the single download attempt is surfaced directly to the caller. -/
theorem network_calls_single_attempt (inp : ActionInputs) (name : String)
    (tool : ToolMetadata) (platform arch : String) (sh cf : Bool)
    (env : NetEnv) (st : LocalCache) :
    (setupTool inp name tool platform arch sh cf env st).restoreCalls ≤ 1 ∧
    (setupTool inp name tool platform arch sh cf env st).saveCalls ≤ 1 ∧
    (setupTool inp name tool platform arch sh cf env st).inner.checksumFetchCalls ≤ 1 ∧
    (setupTool inp name tool platform arch sh cf env st).inner.downloadCalls ≤ 1 ∧
    (∀ t : Thrown, tcFind st tool.name (resolveVersion inp env).1 = none →
      env.toolDownload 1 = .error t →
      (setupTool inp name tool platform arch sh cf env st).inner.result =
        .error (normalizeThrown t) ∧
      (setupTool inp name tool platform arch sh cf env st).inner.downloadCalls = 1) := by
  refine ⟨?_, ?_, ?_, ?_, ?_⟩
  · simp only [setupTool]
    split
    all_goals simp
  · simp only [setupTool]
    cases (cachedSetup inp tool env st).result with
    | error e => simp
    | ok tp =>
        simp only []
        repeat' split
        all_goals simp
  · have h : (setupTool inp name tool platform arch sh cf env st).inner =
        cachedSetup inp tool env st := rfl
    rw [h, (cachedSetup_cases inp tool env st).1]
    exact resolveVersion_calls_le inp env
  · exact (cachedSetup_cases inp tool env st).2
  · intro t hfind hdl
    have h : (setupTool inp name tool platform arch sh cf env st).inner =
        cachedSetup inp tool env st := rfl
    rw [h]
    unfold cachedSetup
    rw [hfind, hdl]
    exact ⟨rfl, rfl⟩

/-- Witness for the amended C1: a concrete miss with a transiently failing
CDN, rejected after exactly one download invocation. -/
theorem network_calls_single_attempt_witness :
    tcFind [] "smctl" (resolveVersion plainInputs transientDownloadEnv).1 = none ∧
    transientDownloadEnv.toolDownload 1 = .error (.err ⟨"ECONNRESET"⟩) ∧
    (setupTool plainInputs "smctl" smctlLinuxMeta "linux" "x64" false false
        transientDownloadEnv []).inner.result = .error ⟨"ECONNRESET"⟩ ∧
    (setupTool plainInputs "smctl" smctlLinuxMeta "linux" "x64" false false
        transientDownloadEnv []).inner.downloadCalls = 1 :=
  ⟨rfl, rfl,
    ((network_calls_single_attempt plainInputs "smctl" smctlLinuxMeta "linux" "x64"
        false false transientDownloadEnv []).2.2.2.2 (.err ⟨"ECONNRESET"⟩) rfl rfl).1,
    ((network_calls_single_attempt plainInputs "smctl" smctlLinuxMeta "linux" "x64"
        false false transientDownloadEnv []).2.2.2.2 (.err ⟨"ECONNRESET"⟩) rfl rfl).2⟩

/-! ## C5: checksum-based version resolution -/

/-- The tokenizer the spec describes: the first whitespace-delimited token
of the checksum file (leading whitespace skipped, token read up to the next
whitespace character). -/
def firstWhitespaceToken (s : String) : String :=
  String.mk ((s.data.dropWhile Char.isWhitespace).takeWhile (fun c => !c.isWhitespace))

/-- Inputs with checksum-based versioning enabled. -/
def checksumInputs : ActionInputs :=
  { cacheVersion := "1.0.0", digicertCdn := "https://cdn.example/tools",
    useBinarySha256Checksum := true, useGithubCachingService := false,
    runnerToolCache := some "/opt/hostedtoolcache" }

/-- A checksum endpoint answering with a newline-separated checksum file. -/
def newlineChecksumEnv : NetEnv :=
  { checksumFetch := fun _ => .ok "deadbeef\nsmctl",
    toolDownload := fun _ => .ok "/tmp/F_dl",
    extraction := .ok "/tmp/D_out",
    restore := fun _ => .ok none,
    save := fun _ => .ok 1 }

/-- C5 counterexample: the code splits the checksum file on the space
character only (`content.split(' ')[0].trim()`, part_007 line 271), so for
the newline-delimited content `"deadbeef\nsmctl"` the resolved version
keeps the newline and the second word, while the first
whitespace-delimited token is `"deadbeef"`. -/
theorem checksum_token_counterexample :
    (resolveVersion checksumInputs newlineChecksumEnv).1 = "0.0.0-deadbeef\nsmctl" ∧
    "0.0.0-" ++ firstWhitespaceToken "deadbeef\nsmctl" = "0.0.0-deadbeef" ∧
    (resolveVersion checksumInputs newlineChecksumEnv).1 ≠
      "0.0.0-" ++ firstWhitespaceToken "deadbeef\nsmctl" := by
  refine ⟨?_, ?_, ?_⟩ <;> decide

/-- C5 (amended): with checksum versioning enabled, the resolved version is
`"0.0.0-"` ++ the trimmed first SPACE-delimited piece of the downloaded
checksum file (which coincides with the first whitespace-delimited token
exactly when that token is followed by a space or stands alone); and
whenever the checksum download fails, version resolution returns the
declared cache-version and never throws, so the acquisition proceeds with
the fallback version. -/
theorem checksum_version_amended (inp : ActionInputs) (tool : ToolMetadata)
    (env : NetEnv) (st : LocalCache) (p : String)
    (hck : inp.useBinarySha256Checksum = true) :
    (∀ content : String, env.checksumFetch 1 = .ok content →
      (resolveVersion inp env).1 = "0.0.0-" ++ jsSplitFirstTrim content) ∧
    (∀ t : Thrown, env.checksumFetch 1 = .error t →
      (resolveVersion inp env).1 = inp.cacheVersion ∧
      (tcFind st tool.name inp.cacheVersion = some p →
        (cachedSetup inp tool env st).result = .ok p)) := by
  constructor
  · intro content hc
    simp [resolveVersion, hck, hc]
  · intro t ht
    have hv : (resolveVersion inp env).1 = inp.cacheVersion := by
      simp [resolveVersion, hck, ht]
    refine ⟨hv, fun hfind => ?_⟩
    unfold cachedSetup
    rw [hv, hfind]

/-- A checksum endpoint answering the conventional
`"<checksum>  <filename>"` shape. -/
def spacedChecksumEnv : NetEnv :=
  { newlineChecksumEnv with checksumFetch := fun _ => .ok "deadbeef  smctl" }

/-- A checksum endpoint that always fails. -/
def failingChecksumEnv : NetEnv :=
  { newlineChecksumEnv with checksumFetch := fun _ => .error (.err ⟨"HTTP 404"⟩) }

/-- Witness for the amended C5: a space-delimited checksum file resolves to
`0.0.0-deadbeef`; a failing checksum endpoint falls back to the declared
cache-version. -/
theorem checksum_version_amended_witness :
    checksumInputs.useBinarySha256Checksum = true ∧
    (resolveVersion checksumInputs spacedChecksumEnv).1 = "0.0.0-deadbeef" ∧
    (resolveVersion checksumInputs failingChecksumEnv).1 = "1.0.0" := by
  refine ⟨rfl, ?_, ?_⟩
  · have h := (checksum_version_amended checksumInputs smctlLinuxMeta spacedChecksumEnv
      [] "p" rfl).1 "deadbeef  smctl" rfl
    rw [h]
    decide
  · exact ((checksum_version_amended checksumInputs smctlLinuxMeta failingChecksumEnv
      [] "p" rfl).2 (.err ⟨"HTTP 404"⟩) rfl).1

/-! ## C8: second acquisition is a local-cache hit -/

/-- A fully healthy environment for an acquisition. -/
def happyEnv : NetEnv :=
  { checksumFetch := fun _ => .error (.err ⟨"unused"⟩),
    toolDownload := fun _ => .ok "/tmp/F_dl",
    extraction := .ok "/tmp/D_out",
    restore := fun _ => .ok none,
    save := fun _ => .ok 1 }

/-- C8: acquiring a tool twice in sequence with the same resolved version
performs exactly one download: the first (miss) run downloads, extracts and
caches once; the second run finds the `(toolName, version)` entry placed by
`tc.cacheDir` and short-circuits to the cached path with no download, no
extraction and no re-caching, leaving the cache unchanged. -/
theorem second_acquisition_cache_hit (inp : ActionInputs) (tool : ToolMetadata)
    (env env2 : NetEnv) (st : LocalCache) (p1 p2 : String)
    (hmiss : tcFind st tool.name (resolveVersion inp env).1 = none)
    (hdl : env.toolDownload 1 = .ok p1)
    (hex : env.extraction = .ok p2)
    (hsame : (resolveVersion inp env2).1 = (resolveVersion inp env).1) :
    (cachedSetup inp tool env st).downloadCalls = 1 ∧
    (cachedSetup inp tool env st).cacheDirCalls = 1 ∧
    (cachedSetup inp tool env2 (cachedSetup inp tool env st).cache).downloadCalls = 0 ∧
    (cachedSetup inp tool env2 (cachedSetup inp tool env st).cache).extractionRuns = 0 ∧
    (cachedSetup inp tool env2 (cachedSetup inp tool env st).cache).cacheDirCalls = 0 ∧
    (cachedSetup inp tool env2 (cachedSetup inp tool env st).cache).result =
      (cachedSetup inp tool env st).result ∧
    (cachedSetup inp tool env2 (cachedSetup inp tool env st).cache).cache =
      (cachedSetup inp tool env st).cache := by
  have h1 : cachedSetup inp tool env st =
      ⟨.ok (cacheDirDest (inp.runnerToolCache.getD "") tool.name (resolveVersion inp env).1),
        ((tool.name, (resolveVersion inp env).1),
          cacheDirDest (inp.runnerToolCache.getD "") tool.name (resolveVersion inp env).1) :: st,
        (resolveVersion inp env).2, 1, 1, 1⟩ := by
    unfold cachedSetup
    rw [hmiss, hdl, hex]
    rfl
  have hfind2 : tcFind (((tool.name, (resolveVersion inp env).1),
      cacheDirDest (inp.runnerToolCache.getD "") tool.name (resolveVersion inp env).1) :: st)
      tool.name (resolveVersion inp env2).1 =
      some (cacheDirDest (inp.runnerToolCache.getD "") tool.name (resolveVersion inp env).1) := by
    rw [hsame]
    simp [tcFind, List.find?]
  have h2 : cachedSetup inp tool env2
      (((tool.name, (resolveVersion inp env).1),
        cacheDirDest (inp.runnerToolCache.getD "") tool.name (resolveVersion inp env).1) :: st) =
      ⟨.ok (cacheDirDest (inp.runnerToolCache.getD "") tool.name (resolveVersion inp env).1),
        ((tool.name, (resolveVersion inp env).1),
          cacheDirDest (inp.runnerToolCache.getD "") tool.name (resolveVersion inp env).1) :: st,
        (resolveVersion inp env2).2, 0, 0, 0⟩ := by
    unfold cachedSetup
    rw [hfind2]
  rw [h1]
  dsimp only
  rw [h2]
  exact ⟨rfl, rfl, rfl, rfl, rfl, rfl, rfl⟩

/-- Witness for C8: starting from an empty cache, the first acquisition of
`smctl` downloads once; the immediate second acquisition downloads zero
times and returns the same cached path. -/
theorem second_acquisition_cache_hit_witness :
    tcFind [] "smctl" (resolveVersion plainInputs happyEnv).1 = none ∧
    (cachedSetup plainInputs smctlLinuxMeta happyEnv []).downloadCalls = 1 ∧
    (cachedSetup plainInputs smctlLinuxMeta happyEnv
        (cachedSetup plainInputs smctlLinuxMeta happyEnv []).cache).downloadCalls = 0 ∧
    (cachedSetup plainInputs smctlLinuxMeta happyEnv
        (cachedSetup plainInputs smctlLinuxMeta happyEnv []).cache).result =
      (cachedSetup plainInputs smctlLinuxMeta happyEnv []).result := by
  have T := second_acquisition_cache_hit plainInputs smctlLinuxMeta happyEnv happyEnv []
    "/tmp/F_dl" "/tmp/D_out" rfl rfl rfl rfl
  exact ⟨rfl, T.1, T.2.2.1, T.2.2.2.2.2.1⟩

/-! ## C9: the remote cache key -/

/-- C9: the remote (GitHub) cache key is always
`{name}-{raw cache-version input}-{platform}-{arch}`, and it does not
depend on the network environment — in particular not on the
checksum-derived resolved version — nor on the local cache state. -/
theorem remote_key_ignores_resolved_version (inp : ActionInputs) (name : String)
    (tool : ToolMetadata) (platform arch : String) (sh cf : Bool)
    (env env2 : NetEnv) (st st2 : LocalCache) :
    (setupTool inp name tool platform arch sh cf env st).remoteKey =
      name ++ "-" ++ inp.cacheVersion ++ "-" ++ platform ++ "-" ++ arch ∧
    (setupTool inp name tool platform arch sh cf env st).remoteKey =
      (setupTool inp name tool platform arch sh cf env2 st2).remoteKey :=
  ⟨rfl, rfl⟩

/-! ## C10: PKCS#11 config file writer (part_007 lines 190-226) -/

/-- The values of `core.platform.platform` the orchestrator branches on. -/
inductive Platform where
  | win32
  | linux
  | darwin
deriving DecidableEq

/-- The platform's path separator, as used by `path.join`. -/
def pathSep : Platform → String
  | .win32 => "\\"
  | _ => "/"

/-- `path.join(a, b)` on the given platform. -/
def pathJoin (p : Platform) (a b : String) : String :=
  a ++ pathSep p ++ b

/-- `LibExtension` (part_007 lines 25-29) as selected by the `switch` at
part_007 lines 202-212. -/
def libExtension : Platform → String
  | .win32 => ".dll"
  | .linux => ".so"
  | .darwin => ".dylib"

/-- The template literal written at part_007 lines 213-217. -/
def pkcs11Config (p : Platform) (toolPath : String) : String :=
  "\n            name=\"DigiCert Software Trust Manager\"\n            library=" ++
    pathJoin p toolPath ("smpkcs11" ++ libExtension p) ++
    "\n            slotListIndex=0\n        "

/-- JavaScript `s.replaceAll('\\', '\\\\')`: every backslash doubled. -/
def doubleBackslashes : List Char → List Char
  | [] => []
  | c :: cs =>
      if c = '\\' then '\\' :: '\\' :: doubleBackslashes cs
      else c :: doubleBackslashes cs

/-- Part_007 lines 221-223: on Windows every backslash of the reported path
is doubled (`cfgPath.replaceAll('\\', '\\\\')`). -/
def winEscape (p : Platform) (s : String) : String :=
  if p = .win32 then String.mk (doubleBackslashes s.data) else s

/-- Observables of one `writePKCS11ConfigFile` run: the file system after
the call, the published output, and the returned path. -/
structure Pkcs11Run where
  fileSystem : String → Option String
  output : Option (String × String)
  ret : String

/-- `writePKCS11ConfigFile` from part_007 lines 190-226: when
`pkc11Properties.cfg` is absent from the tool directory it is written with
the platform-specific library path; in both cases the (Windows-escaped)
path is published as the `PKCS11_CONFIG` output and returned. -/
def writePKCS11ConfigFile (p : Platform) (fs0 : String → Option String)
    (toolPath : String) : Pkcs11Run :=
  { fileSystem :=
      if (fs0 (pathJoin p toolPath "pkc11Properties.cfg")).isSome then fs0
      else fun q =>
        if q = pathJoin p toolPath "pkc11Properties.cfg" then
          some (pkcs11Config p toolPath)
        else fs0 q,
    output := some ("PKCS11_CONFIG", winEscape p (pathJoin p toolPath "pkc11Properties.cfg")),
    ret := winEscape p (pathJoin p toolPath "pkc11Properties.cfg") }

/-- C10: when the config file already exists, no write happens and the
whole file system is untouched, yet the `PKCS11_CONFIG` output is still
published with the returned path, which on Windows has every backslash
doubled. -/
theorem writePKCS11_existing_contract (p : Platform) (fs0 : String → Option String)
    (toolPath c : String)
    (h : fs0 (pathJoin p toolPath "pkc11Properties.cfg") = some c) :
    (∀ q, (writePKCS11ConfigFile p fs0 toolPath).fileSystem q = fs0 q) ∧
    (writePKCS11ConfigFile p fs0 toolPath).output =
      some ("PKCS11_CONFIG", winEscape p (pathJoin p toolPath "pkc11Properties.cfg")) ∧
    (writePKCS11ConfigFile p fs0 toolPath).ret =
      winEscape p (pathJoin p toolPath "pkc11Properties.cfg") ∧
    (p = .win32 → (writePKCS11ConfigFile p fs0 toolPath).ret =
      String.mk (doubleBackslashes (pathJoin p toolPath "pkc11Properties.cfg").data)) := by
  refine ⟨?_, rfl, rfl, ?_⟩
  · intro q
    simp [writePKCS11ConfigFile, h]
  · intro hp
    simp [writePKCS11ConfigFile, winEscape, hp]

/-- A one-file file system holding an existing config in `C:\smtools`. -/
def winFs : String → Option String :=
  fun q => if q = "C:\\smtools\\pkc11Properties.cfg" then some "existing content" else none

/-- Witness for C10 on Windows: the existing file is untouched and the
doubled-backslash path is published and returned. -/
theorem writePKCS11_existing_contract_witness :
    winFs (pathJoin .win32 "C:\\smtools" "pkc11Properties.cfg") = some "existing content" ∧
    (writePKCS11ConfigFile .win32 winFs "C:\\smtools").fileSystem
      "C:\\smtools\\pkc11Properties.cfg" = some "existing content" ∧
    (writePKCS11ConfigFile .win32 winFs "C:\\smtools").ret =
      "C:\\\\smtools\\\\pkc11Properties.cfg" ∧
    (writePKCS11ConfigFile .win32 winFs "C:\\smtools").output =
      some ("PKCS11_CONFIG", "C:\\\\smtools\\\\pkc11Properties.cfg") := by
  have T := writePKCS11_existing_contract .win32 winFs "C:\\smtools" "existing content"
    (by decide)
  refine ⟨by decide, ?_, ?_, ?_⟩
  · exact (T.1 "C:\\smtools\\pkc11Properties.cfg").trans (by decide)
  · exact (T.2.2.1).trans (by decide)
  · exact (T.2.1).trans (by decide)

end SWTrust
